import Mathlib

/-!
Formal model of the website time tracker browser extension.

The development embeds the two source files of the repository:

* `background.js` — the domain time accrual engine: `getDomain`,
  `updateStoredTime`, `stopTrackingCurrentDomain`, `startTrackingNewDomain`
  and `handleTabChange`, together with the in-memory `activeTabInfo` record
  and the persisted per-domain duration map (`chrome.storage.local`).
* `popup.js` — the duration formatter `formatTime`.

JavaScript numbers that hold timestamps and durations are modelled as `Int`
(they are integral millisecond counts in this program); JS truthiness of the
relevant values (`null`/`undefined`, the empty string, the number `0`) is
modelled explicitly.  Asynchronous storage and tab-lookup failures are
modelled by explicit parameters describing the outcome of the awaited
platform call; an exception caught by a `try`/`catch` leaves the state as it
was at the throw point.
-/

namespace TimeTracker

/-! ## Model of the WHATWG `URL` constructor (fragment used by `getDomain`)

`background.js` calls `new URL(url)` and reads `.hostname`.  `parseURL`
models the WHATWG URL parser on the fragment this program can observe:

* the scheme is parsed case-insensitively and normalised to lower case;
* for the special schemes `http` and `https` the slashes after the colon
  are skipped (any number, including zero, of `/` or `\`), the authority
  runs until `/`, `\`, `?` or `#`, an optional `:port` of digits is split
  off, and the remaining host must be a non-empty word of ASCII
  alphanumerics, `-`, `.` or `_`, lower-cased into `hostname`
  (percent-encoding, IDNA and userinfo `@` syntax are outside the model);
* for any other scheme only the normalised `protocol` is modelled and the
  `hostname` is left `""` (as for opaque-path URLs such as `mailto:`).
-/

/-- A parsed URL: the normalised scheme (with trailing colon, as in the JS
`URL.protocol`) and the hostname. -/
structure ParsedURL where
  protocol : String
  hostname : String
deriving DecidableEq, Repr

/-- Characters allowed in a URL scheme after the first letter. -/
def isSchemeChar (c : Char) : Bool :=
  c.isAlpha || c.isDigit || c = '+' || c = '-' || c = '.'

/-- Characters the model allows in a hostname. -/
def isHostChar (c : Char) : Bool :=
  c.isAlpha || c.isDigit || c = '-' || c = '.' || c = '_'

/-- Splits a leading `scheme:` off a character list, returning the
lower-cased scheme and the remainder, or `none` if there is no scheme. -/
def parseScheme (cs : List Char) : Option (String × List Char) :=
  match cs with
  | [] => none
  | c :: _ =>
    if c.isAlpha then
      match cs.dropWhile isSchemeChar with
      | ':' :: rest => some (String.mk ((cs.takeWhile isSchemeChar).map Char.toLower), rest)
      | _ => none
    else none

/-- Parses the host of a special-scheme URL from the characters after the
colon; returns the lower-cased hostname or `none` on parse failure. -/
def parseSpecialHost (rest : List Char) : Option String :=
  let afterSlashes := rest.dropWhile (fun c => c = '/' || c = '\\')
  let auth := afterSlashes.takeWhile (fun c => c ≠ '/' && c ≠ '\\' && c ≠ '?' && c ≠ '#')
  if auth.contains '@' then none
  else
    let host := auth.takeWhile (· ≠ ':')
    let portPart := auth.dropWhile (· ≠ ':')
    let portOk := match portPart with
      | [] => true
      | _ :: ds => ds.all Char.isDigit
    if host.isEmpty then none
    else if !host.all isHostChar then none
    else if !portOk then none
    else some (String.mk (host.map Char.toLower))

/-- Model of `new URL(url)` restricted to the observable fragment: `none`
means the constructor throws. -/
def parseURL (url : String) : Option ParsedURL :=
  match parseScheme url.data with
  | none => none
  | some (scheme, rest) =>
    if scheme = "http" || scheme = "https" then
      match parseSpecialHost rest with
      | none => none
      | some host => some ⟨scheme ++ ":", host⟩
    else
      some ⟨scheme ++ ":", ""⟩

/-- JS `String.prototype.startsWith` (case-sensitive prefix test). -/
def jsStartsWith (s pre : String) : Bool :=
  pre.data.isPrefixOf s.data

/-- Embeds `getDomain` of `background.js`: reject falsy input and input
without the literal `http:`/`https:` prefix, then parse and read the
hostname; a parser throw is caught and turned into `null`. -/
def getDomain (url : String) : Option String :=
  if url = "" then none
  else if !jsStartsWith url "http:" && !jsStartsWith url "https:" then none
  else
    match parseURL url with
    | some parsedUrl => some parsedUrl.hostname
    | none => none

/-! ## The persisted per-domain duration map (`chrome.storage.local`) -/

/-- The persisted key-value store: an association list from domain to
cumulative milliseconds, in insertion order. -/
abbrev Store := List (String × Int)

/-- Reads one key (`chrome.storage.local.get`): first binding wins. -/
def getStored : Store → String → Option Int
  | [], _ => none
  | (k, v) :: rest, d => if k = d then some v else getStored rest d

/-- Writes one key (`chrome.storage.local.set`): replaces the first binding
of the key, or appends a new binding. -/
def setStored : Store → String → Int → Store
  | [], d, v => [(d, v)]
  | (k, w) :: rest, d, v =>
    if k = d then (d, v) :: rest else (k, w) :: setStored rest d v

/-- The value recorded for a domain, an absent entry counting as 0 (the
`data[domain] || 0` read of the source). -/
def storedMs (store : Store) (d : String) : Int :=
  (getStored store d).getD 0

/-! ## The accrual engine state -/

/-- JS truthiness of a possibly-absent string (`null`/`undefined` and `""`
are falsy). -/
def truthyStr : Option String → Bool
  | none => false
  | some s => s ≠ ""

/-- JS truthiness of a possibly-absent number (`null`/`undefined` and `0`
are falsy). -/
def truthyInt : Option Int → Bool
  | none => false
  | some n => n ≠ 0

/-- The in-memory `activeTabInfo` record of `background.js`. -/
structure ActiveTabInfo where
  tabId : Option Int
  domain : Option String
  startTime : Option Int
deriving DecidableEq, Repr

/-- The empty active record (`{ tabId: null, domain: null, startTime: null }`). -/
def emptyActive : ActiveTabInfo := ⟨none, none, none⟩

/-- The whole engine state: the active record plus the persisted map. -/
structure EngineState where
  active : ActiveTabInfo
  store : Store
deriving DecidableEq, Repr

/-- The state at process start: empty record, and (on first install) an
empty persisted map. -/
def initialState : EngineState := ⟨emptyActive, []⟩

/-- Embeds `updateStoredTime(domain, timeSpentMs)`.  `storageFails` tells
whether the awaited `chrome.storage.local` get/set rejects; the rejection
is caught and logged, leaving the store as it was. -/
def updateStoredTime (store : Store) (domain : Option String) (timeSpentMs : Int)
    (storageFails : Bool) : Store :=
  match domain with
  | none => store
  | some d =>
    if d = "" ∨ timeSpentMs ≤ 0 then store
    else if storageFails then store
    else setStored store d (storedMs store d + timeSpentMs)

/-- Embeds `stopTrackingCurrentDomain()` at instant `now` (`Date.now()`). -/
def stopTrackingCurrentDomain (s : EngineState) (now : Int) (storageFails : Bool) :
    EngineState :=
  if truthyStr s.active.domain && truthyInt s.active.startTime then
    { active := emptyActive,
      store := updateStoredTime s.store s.active.domain
        (now - (s.active.startTime.getD 0)) storageFails }
  else s

/-- Embeds `startTrackingNewDomain(tabId, domain)` at instant `now`. -/
def startTrackingNewDomain (s : EngineState) (tabId : Int) (domain : Option String)
    (now : Int) : EngineState :=
  if truthyStr domain then
    { s with active := ⟨some tabId, domain, some now⟩ }
  else s

/-- The observable fields of a `chrome.tabs.Tab` used by the handler. -/
structure Tab where
  active : Bool
  url : Option String
  status : String
deriving DecidableEq, Repr

/-- Outcome of the awaited `chrome.tabs.get(tabId)`: a tab (possibly a null
value), a rejection whose message contains `No tab with id`, or any other
rejection. -/
inductive TabLookup where
  | ok (tab : Option Tab)
  | noTab
  | otherError
deriving DecidableEq, Repr

/-- Embeds `handleTabChange(tabId)`; `lookup` is the outcome of the tab
lookup, `now` the instant of the step, `storageFails` the outcome of any
storage access performed during the step. -/
def handleTabChange (s : EngineState) (tabId : Int) (lookup : TabLookup) (now : Int)
    (storageFails : Bool) : EngineState :=
  match lookup with
  | .ok none =>
    if s.active.tabId = some tabId then stopTrackingCurrentDomain s now storageFails
    else s
  | .ok (some tab) =>
    if !(tab.active && truthyStr tab.url && tab.status = "complete") then
      if s.active.tabId = some tabId then stopTrackingCurrentDomain s now storageFails
      else s
    else
      let newDomain := getDomain (tab.url.getD "")
      if newDomain = s.active.domain then s
      else
        let s1 := stopTrackingCurrentDomain s now storageFails
        if truthyStr newDomain then startTrackingNewDomain s1 tabId newDomain now
        else s1
  | .noTab =>
    if s.active.tabId = some tabId then stopTrackingCurrentDomain s now storageFails
    else s
  | .otherError => stopTrackingCurrentDomain s now storageFails

/-- One engine operation, for reasoning about arbitrary operation
sequences (the clear-all reset of the popup is deliberately not among
them). -/
inductive EngineOp where
  | flush (domain : Option String) (timeSpentMs : Int) (storageFails : Bool)
  | stop (now : Int) (storageFails : Bool)
  | start (tabId : Int) (domain : Option String) (now : Int)
  | reconcile (tabId : Int) (lookup : TabLookup) (now : Int) (storageFails : Bool)

/-- Applies one engine operation to the state. -/
def applyOp (s : EngineState) : EngineOp → EngineState
  | .flush d t f => { s with store := updateStoredTime s.store d t f }
  | .stop now f => stopTrackingCurrentDomain s now f
  | .start tabId d now => startTrackingNewDomain s tabId d now
  | .reconcile tabId lookup now f => handleTabChange s tabId lookup now f

/-- Applies a sequence of engine operations in order. -/
def runOps (s : EngineState) (ops : List EngineOp) : EngineState :=
  ops.foldl applyOp s

/-! ## Lemmas about the persisted store -/

theorem getStored_setStored_self (st : Store) (d : String) (v : Int) :
    getStored (setStored st d v) d = some v := by
  induction st with
  | nil => simp [setStored, getStored]
  | cons p rest ih =>
    obtain ⟨k, w⟩ := p
    by_cases h : k = d
    · simp [setStored, h, getStored]
    · simp [setStored, h, getStored, ih]

theorem getStored_setStored_ne (st : Store) {d k' : String} (v : Int) (h : d ≠ k') :
    getStored (setStored st d v) k' = getStored st k' := by
  induction st with
  | nil => simp [setStored, getStored, h]
  | cons p rest ih =>
    obtain ⟨k, w⟩ := p
    by_cases hk : k = d
    · subst hk
      simp [setStored, getStored, h, Ne.symm h]
    · by_cases hk' : k = k'
      · subst hk'
        simp [setStored, hk, getStored]
      · simp [setStored, hk, getStored, hk', ih]

theorem updateStoredTime_storageFail (store : Store) (domain : Option String) (t : Int) :
    updateStoredTime store domain t true = store := by
  cases domain with
  | none => rfl
  | some d =>
    simp only [updateStoredTime]
    split
    · rfl
    · rfl

theorem storedMs_updateStoredTime_le (store : Store) (domain : Option String) (t : Int)
    (f : Bool) (k : String) :
    storedMs store k ≤ storedMs (updateStoredTime store domain t f) k := by
  cases domain with
  | none => exact le_refl _
  | some d =>
    simp only [updateStoredTime]
    split
    · exact le_refl _
    · split
      · exact le_refl _
      · rename_i hguard _
        by_cases hk : d = k
        · subst hk
          have h1 : 0 < t := by
            rcases not_or.mp hguard with ⟨-, h2⟩
            omega
          simp only [storedMs, getStored_setStored_self, Option.getD_some]
          omega
        · simp only [storedMs, getStored_setStored_ne store _ hk]
          exact le_refl _

theorem stopTracking_store_le (s : EngineState) (now : Int) (f : Bool) (k : String) :
    storedMs s.store k ≤ storedMs (stopTrackingCurrentDomain s now f).store k := by
  simp only [stopTrackingCurrentDomain]
  split
  · exact storedMs_updateStoredTime_le _ _ _ _ _
  · exact le_refl _

theorem startTracking_store_eq (s : EngineState) (tabId : Int) (domain : Option String)
    (now : Int) : (startTrackingNewDomain s tabId domain now).store = s.store := by
  simp only [startTrackingNewDomain]
  split <;> rfl

theorem handleTabChange_store_le (s : EngineState) (tabId : Int) (lookup : TabLookup)
    (now : Int) (f : Bool) (k : String) :
    storedMs s.store k ≤ storedMs (handleTabChange s tabId lookup now f).store k := by
  cases lookup with
  | ok tab =>
    cases tab with
    | none =>
      simp only [handleTabChange]
      split
      · exact stopTracking_store_le _ _ _ _
      · exact le_refl _
    | some tb =>
      simp only [handleTabChange]
      split
      · split
        · exact stopTracking_store_le _ _ _ _
        · exact le_refl _
      · split
        · exact le_refl _
        · split
          · rw [startTracking_store_eq]
            exact stopTracking_store_le _ _ _ _
          · exact stopTracking_store_le _ _ _ _
  | noTab =>
    simp only [handleTabChange]
    split
    · exact stopTracking_store_le _ _ _ _
    · exact le_refl _
  | otherError => exact stopTracking_store_le _ _ _ _

theorem applyOp_store_le (s : EngineState) (op : EngineOp) (k : String) :
    storedMs s.store k ≤ storedMs (applyOp s op).store k := by
  cases op with
  | flush d t f => exact storedMs_updateStoredTime_le _ _ _ _ _
  | stop now f => exact stopTracking_store_le _ _ _ _
  | start tabId d now => rw [applyOp, startTracking_store_eq]
  | reconcile tabId lookup now f => exact handleTabChange_store_le _ _ _ _ _ _

theorem runOps_store_le (s : EngineState) (ops : List EngineOp) (k : String) :
    storedMs s.store k ≤ storedMs (runOps s ops).store k := by
  induction ops generalizing s with
  | nil => exact le_refl _
  | cons op ops ih =>
    calc storedMs s.store k ≤ storedMs (applyOp s op).store k := applyOp_store_le s op k
      _ ≤ storedMs (runOps (applyOp s op) ops).store k := ih (applyOp s op)

theorem updateStoredTime_noop_of (store : Store) (domain : Option String)
    (timeSpentMs : Int) (storageFails : Bool)
    (h : timeSpentMs ≤ 0 ∨ domain = none) :
    updateStoredTime store domain timeSpentMs storageFails = store := by
  cases domain with
  | none => rfl
  | some d =>
    rcases h with h | h
    · simp [updateStoredTime, h]
    · exact absurd h (by simp)

theorem storedMs_updateStoredTime_pos (store : Store) (d : String) (t : Int)
    (hd : d ≠ "") (ht : 0 < t) :
    storedMs (updateStoredTime store (some d) t false) d = storedMs store d + t := by
  have h1 : ¬(d = "" ∨ t ≤ 0) := by
    push_neg
    exact ⟨hd, by omega⟩
  simp [updateStoredTime, h1, storedMs, getStored_setStored_self]

/-! ## Claim theorems about the engine -/

/-- C6: a flush with a non-positive elapsed time, or with an absent domain,
leaves the persisted map completely unchanged — no entry is created and no
entry is modified. -/
theorem flush_nonpositive_noop (store : Store) (domain : Option String)
    (timeSpentMs : Int) (storageFails : Bool)
    (h : timeSpentMs ≤ 0 ∨ domain = none) :
    updateStoredTime store domain timeSpentMs storageFails = store :=
  updateStoredTime_noop_of store domain timeSpentMs storageFails h

/-- Witness for C6: flushing a negative delta, a zero delta, and an absent
domain, each against a concrete one-entry map, changes nothing. -/
theorem flush_nonpositive_noop_witness :
    updateStoredTime [("a.example", 5)] (some "a.example") (-3) false = [("a.example", 5)]
    ∧ updateStoredTime [("a.example", 5)] (some "b.example") 0 false = [("a.example", 5)]
    ∧ updateStoredTime [("a.example", 5)] none 7 false = [("a.example", 5)] :=
  ⟨flush_nonpositive_noop _ _ _ _ (Or.inl (by decide)),
   flush_nonpositive_noop _ _ _ _ (Or.inl (by decide)),
   flush_nonpositive_noop _ _ _ _ (Or.inr rfl)⟩

/-- C7: stopping with no active record (domain and start time both absent)
is a no-op on the whole engine state, and iterating the call any number of
times has the same effect as calling it once. -/
theorem stopTracking_idle_noop (s : EngineState) (now : Int) (storageFails : Bool)
    (hd : s.active.domain = none) (_ht : s.active.startTime = none) :
    stopTrackingCurrentDomain s now storageFails = s ∧
      ∀ n : Nat, (fun st => stopTrackingCurrentDomain st now storageFails)^[n] s = s := by
  have h1 : stopTrackingCurrentDomain s now storageFails = s := by
    simp [stopTrackingCurrentDomain, hd, truthyStr]
  refine ⟨h1, fun n => ?_⟩
  induction n with
  | zero => simp
  | succ n ih => rw [Function.iterate_succ_apply, h1, ih]

/-- Witness for C7: a concrete idle state is untouched by one call and by
five iterated calls. -/
theorem stopTracking_idle_noop_witness :
    stopTrackingCurrentDomain ⟨⟨some 3, none, none⟩, [("x.example", 2)]⟩ 10 false
        = ⟨⟨some 3, none, none⟩, [("x.example", 2)]⟩
    ∧ (fun st => stopTrackingCurrentDomain st 10 false)^[5]
          ⟨⟨some 3, none, none⟩, [("x.example", 2)]⟩
        = ⟨⟨some 3, none, none⟩, [("x.example", 2)]⟩ := by
  have h := stopTracking_idle_noop ⟨⟨some 3, none, none⟩, [("x.example", 2)]⟩ 10 false rfl rfl
  exact ⟨h.1, h.2 5⟩

/-- C8: when an active record exists and the persisted-store write fails,
the in-memory active record is still reset to empty (the record is not
rolled back, the update is dropped) and the engine ends the step idle, with
the persisted map unchanged. -/
theorem stopTracking_storageFail (s : EngineState) (now : Int)
    (hd : truthyStr s.active.domain = true) (ht : truthyInt s.active.startTime = true) :
    (stopTrackingCurrentDomain s now true).active = emptyActive ∧
      (stopTrackingCurrentDomain s now true).store = s.store := by
  have hg : (truthyStr s.active.domain && truthyInt s.active.startTime) = true := by
    simp [hd, ht]
  constructor
  · simp [stopTrackingCurrentDomain, hg]
  · simp [stopTrackingCurrentDomain, hg, updateStoredTime_storageFail]

/-- Witness for C8: a concrete tracking state whose flush fails ends idle
with its persisted map intact. -/
theorem stopTracking_storageFail_witness :
    (stopTrackingCurrentDomain ⟨⟨some 4, some "a.example", some 100⟩, [("b.example", 9)]⟩
        600 true).active = emptyActive
    ∧ (stopTrackingCurrentDomain ⟨⟨some 4, some "a.example", some 100⟩, [("b.example", 9)]⟩
        600 true).store = [("b.example", 9)] :=
  stopTracking_storageFail ⟨⟨some 4, some "a.example", some 100⟩, [("b.example", 9)]⟩ 600
    (by decide) (by decide)

/-- C3: under every sequence of engine operations (flush, stop, start,
reconcile — the clear-all reset excluded), the persisted value of every
domain never decreases at any step, and starting from the initial empty
state every entry is non-negative (an absent entry counting as 0). -/
theorem persisted_map_monotone :
    (∀ (s : EngineState) (op : EngineOp) (k : String),
        storedMs s.store k ≤ storedMs (applyOp s op).store k)
    ∧ (∀ (s : EngineState) (ops : List EngineOp) (k : String),
        storedMs s.store k ≤ storedMs (runOps s ops).store k)
    ∧ (∀ (ops : List EngineOp) (k : String),
        0 ≤ storedMs (runOps initialState ops).store k) := by
  refine ⟨applyOp_store_le, runOps_store_le, fun ops k => ?_⟩
  have h0 : storedMs initialState.store k = 0 := rfl
  have := runOps_store_le initialState ops k
  omega

/-- C1: a reconcile step that finds a focused, navigation-complete tab
whose URL's domain differs from the tracked domain credits the outgoing
domain with exactly `now - startTime` and replaces the active record with
`{tabId, newDomain, startTime := now}`.  Timestamps are relative to the
process clock, whose values are positive (`Date.now()`), so the tracked
`startTime` is non-zero. -/
theorem reconcile_domain_switch (s : EngineState) (tabId : Int) (tb : Tab)
    (now t : Int) (d nd u : String)
    (hdom : s.active.domain = some d) (hd : d ≠ "")
    (hstart : s.active.startTime = some t) (ht : t ≠ 0) (hle : t ≤ now)
    (hact : tb.active = true) (hstat : tb.status = "complete")
    (hurl : tb.url = some u) (hu : u ≠ "")
    (hnd : getDomain u = some nd) (hne : nd ≠ "") (hdiff : nd ≠ d) :
    storedMs (handleTabChange s tabId (TabLookup.ok (some tb)) now false).store d
        = storedMs s.store d + (now - t)
    ∧ (handleTabChange s tabId (TabLookup.ok (some tb)) now false).active
        = ⟨some tabId, some nd, some now⟩ := by
  have hstop : stopTrackingCurrentDomain s now false
      = ⟨emptyActive, updateStoredTime s.store (some d) (now - t) false⟩ := by
    simp [stopTrackingCurrentDomain, hdom, hstart, truthyStr, truthyInt, hd, ht]
  have hhandle : handleTabChange s tabId (TabLookup.ok (some tb)) now false
      = startTrackingNewDomain
          ⟨emptyActive, updateStoredTime s.store (some d) (now - t) false⟩
          tabId (some nd) now := by
    simp [handleTabChange, hact, hstat, hurl, truthyStr, hu, hnd, hdom, hdiff, hne, hstop]
  rw [hhandle]
  constructor
  · rw [startTracking_store_eq]
    by_cases hz : now - t ≤ 0
    · have h0 : now - t = 0 := by omega
      rw [updateStoredTime_noop_of _ _ _ _ (Or.inl hz), h0, add_zero]
    · exact storedMs_updateStoredTime_pos s.store d (now - t) hd (by omega)
  · simp [startTrackingNewDomain, truthyStr, hne]

/-- Witness for C1: tracking `a.example` (tab 7) since instant 1 and
reconciling tab 7 at `https://b.example/y`, focused and complete, at
instant 5001 credits `a.example` with 5000 ms and leaves the record
`{tabId := 7, domain := b.example, startTime := 5001}`. -/
theorem reconcile_domain_switch_witness :
    storedMs (handleTabChange ⟨⟨some 7, some "a.example", some 1⟩, []⟩ 7
        (TabLookup.ok (some ⟨true, some "https://b.example/y", "complete"⟩))
        5001 false).store "a.example" = 5000
    ∧ (handleTabChange ⟨⟨some 7, some "a.example", some 1⟩, []⟩ 7
        (TabLookup.ok (some ⟨true, some "https://b.example/y", "complete"⟩))
        5001 false).active = ⟨some 7, some "b.example", some 5001⟩ := by
  have h := reconcile_domain_switch ⟨⟨some 7, some "a.example", some 1⟩, []⟩ 7
      ⟨true, some "https://b.example/y", "complete"⟩ 5001 1 "a.example" "b.example"
      "https://b.example/y" rfl (by decide) rfl (by decide) (by decide) rfl rfl rfl
      (by decide) (by decide) (by decide) (by decide)
  exact ⟨h.1.trans (by decide), h.2⟩

/-- Counterexample to C2 as stated: while tab 1 is being tracked, an
unexpected lookup error for the different tab 2 still stops tracking — the
active record is cleared and the outgoing domain flushed, although the
claim says the state would be unchanged. -/
theorem unexpected_error_cex :
    ((⟨⟨some 1, some "a.example", some 1⟩, []⟩ : EngineState).active.tabId ≠ some 2)
    ∧ handleTabChange ⟨⟨some 1, some "a.example", some 1⟩, []⟩ 2
        TabLookup.otherError 5001 false = ⟨⟨none, none, none⟩, [("a.example", 5000)]⟩
    ∧ handleTabChange ⟨⟨some 1, some "a.example", some 1⟩, []⟩ 2
        TabLookup.otherError 5001 false ≠ ⟨⟨some 1, some "a.example", some 1⟩, []⟩ := by
  refine ⟨by decide, by decide, by decide⟩

/-- C2 amended: an unexpected lookup error stops tracking unconditionally —
the step behaves exactly like `stopTrackingCurrentDomain`, clearing any
active record even when the erring tab is not the tracked one. -/
theorem unexpected_error_stops_unconditionally (s : EngineState) (tabId : Int)
    (now : Int) (f : Bool) :
    handleTabChange s tabId TabLookup.otherError now f
        = stopTrackingCurrentDomain s now f
    ∧ (truthyStr s.active.domain = true → truthyInt s.active.startTime = true →
        (handleTabChange s tabId TabLookup.otherError now f).active = emptyActive) := by
  refine ⟨rfl, fun hd ht => ?_⟩
  show (stopTrackingCurrentDomain s now f).active = emptyActive
  simp [stopTrackingCurrentDomain, hd, ht]

/-- Witness for C2 amended: with tab 1 tracked, an unexpected error while
looking up tab 2 clears the active record. -/
theorem unexpected_error_stops_unconditionally_witness :
    handleTabChange ⟨⟨some 1, some "a.example", some 3⟩, []⟩ 2
        TabLookup.otherError 5 false
        = stopTrackingCurrentDomain ⟨⟨some 1, some "a.example", some 3⟩, []⟩ 5 false
    ∧ (handleTabChange ⟨⟨some 1, some "a.example", some 3⟩, []⟩ 2
        TabLookup.otherError 5 false).active = emptyActive := by
  have h := unexpected_error_stops_unconditionally
      ⟨⟨some 1, some "a.example", some 3⟩, []⟩ 2 5 false
  exact ⟨h.1, h.2 (by decide) (by decide)⟩

/-! ## Lemmas about `getDomain` and the URL model -/

theorem parseScheme_http (cs : List Char) :
    parseScheme ('h' :: 't' :: 't' :: 'p' :: ':' :: cs) = some ("http", cs) := rfl

theorem parseScheme_https (cs : List Char) :
    parseScheme ('h' :: 't' :: 't' :: 'p' :: 's' :: ':' :: cs) = some ("https", cs) := rfl

theorem parseURL_protocol_of_prefix {url : String} {parts : ParsedURL}
    (hpre : jsStartsWith url "http:" = true ∨ jsStartsWith url "https:" = true)
    (hp : parseURL url = some parts) :
    parts.protocol = "http:" ∨ parts.protocol = "https:" := by
  rcases hpre with hpre | hpre
  · have hdata : ∃ rest, url.data = 'h' :: 't' :: 't' :: 'p' :: ':' :: rest := by
      have h2 : ("http:").data <+: url.data := List.isPrefixOf_iff_prefix.mp hpre
      obtain ⟨tl, htl⟩ := h2
      exact ⟨tl, htl.symm⟩
    obtain ⟨rest, hdata⟩ := hdata
    unfold parseURL at hp
    rw [hdata, parseScheme_http] at hp
    simp at hp
    cases hh : parseSpecialHost rest with
    | none => rw [hh] at hp; simp at hp
    | some host =>
      rw [hh] at hp
      simp at hp
      left
      rw [← hp]
  · have hdata : ∃ rest, url.data = 'h' :: 't' :: 't' :: 'p' :: 's' :: ':' :: rest := by
      have h2 : ("https:").data <+: url.data := List.isPrefixOf_iff_prefix.mp hpre
      obtain ⟨tl, htl⟩ := h2
      exact ⟨tl, htl.symm⟩
    obtain ⟨rest, hdata⟩ := hdata
    unfold parseURL at hp
    rw [hdata, parseScheme_https] at hp
    simp at hp
    cases hh : parseSpecialHost rest with
    | none => rw [hh] at hp; simp at hp
    | some host =>
      rw [hh] at hp
      simp at hp
      right
      rw [← hp]

/-- Counterexample to C4 as stated: `HTTP://a.example/` is a valid URL whose
scheme is HTTP (the parser normalises the scheme case-insensitively), yet
`getDomain` returns `none`, because the source checks the literal
case-sensitive prefixes `http:`/`https:` before parsing. -/
theorem extractDomain_uppercase_scheme_cex :
    parseURL "HTTP://a.example/" = some ⟨"http:", "a.example"⟩
    ∧ getDomain "HTTP://a.example/" = none := ⟨by decide, by decide⟩

/-- C4 amended: for every valid URL whose scheme is HTTP or HTTPS and is
written in lower case — the string carries the literal prefix `http:` or
`https:` — `getDomain` returns exactly the hostname component. -/
theorem extractDomain_hostname (url : String) (parts : ParsedURL)
    (hp : parseURL url = some parts)
    (hpre : jsStartsWith url "http:" = true ∨ jsStartsWith url "https:" = true) :
    getDomain url = some parts.hostname := by
  have hne : url ≠ "" := by
    intro he
    subst he
    rcases hpre with h | h <;> simp [jsStartsWith, List.isPrefixOf] at h
  unfold getDomain
  rw [if_neg hne]
  have hcond : (!jsStartsWith url "http:" && !jsStartsWith url "https:") = false := by
    rcases hpre with h | h <;> simp [h]
  rw [hcond]
  simp [hp]

/-- Witness for C4 amended: a lower-case HTTPS URL maps to its hostname. -/
theorem extractDomain_hostname_witness :
    getDomain "https://www.google.com/search" = some "www.google.com" :=
  extractDomain_hostname _ ⟨"https:", "www.google.com"⟩ (by decide) (Or.inr (by decide))

/-- C5: on empty input, on malformed input (the URL constructor throws) and
on any URL whose scheme is not HTTP or HTTPS, `getDomain` returns `none`;
it never throws — it is a total function into `Option`, the parser throw
being caught inside it. -/
theorem extractDomain_rejects (url : String)
    (h : url = "" ∨ parseURL url = none
        ∨ ∃ parts, parseURL url = some parts
            ∧ parts.protocol ≠ "http:" ∧ parts.protocol ≠ "https:") :
    getDomain url = none := by
  rcases h with h | h | ⟨parts, hp, h1, h2⟩
  · subst h
    rfl
  · unfold getDomain
    split
    · rfl
    · split
      · rfl
      · rw [h]
  · have hpre : ¬(jsStartsWith url "http:" = true ∨ jsStartsWith url "https:" = true) := by
      intro hpre
      rcases parseURL_protocol_of_prefix hpre hp with hh | hh
      · exact h1 hh
      · exact h2 hh
    push_neg at hpre
    obtain ⟨hp1, hp2⟩ := hpre
    have hne : url ≠ "" := by
      intro he
      subst he
      simp [parseURL, parseScheme] at hp
    unfold getDomain
    rw [if_neg hne]
    simp [Bool.eq_false_iff.mpr hp1, Bool.eq_false_iff.mpr hp2]

/-- Witness for C5: the empty string, a malformed http URL with no host,
and an FTP URL are all mapped to `none`. -/
theorem extractDomain_rejects_witness :
    getDomain "" = none ∧ getDomain "http://" = none
    ∧ getDomain "ftp://x.example/" = none :=
  ⟨extractDomain_rejects "" (Or.inl rfl),
   extractDomain_rejects "http://" (Or.inr (Or.inl (by decide))),
   extractDomain_rejects "ftp://x.example/"
     (Or.inr (Or.inr ⟨⟨"ftp:", ""⟩, by decide, by decide, by decide⟩))⟩

/-! ## The popup formatter (`popup.js`) -/

/-- JS whitespace, as stripped by `String.prototype.trim`, restricted to
the ASCII range (the only characters the formatter ever produces). -/
def isJsWhitespace (c : Char) : Bool :=
  c = ' ' || c = '\t' || c = '\n' || c = '\r' || c = '\x0b' || c = '\x0c'

/-- Trims whitespace from both ends of a character list. -/
def trimChars (l : List Char) : List Char :=
  ((l.dropWhile isJsWhitespace).reverse.dropWhile isJsWhitespace).reverse

/-- JS `String.prototype.trim`. -/
def jsTrim (s : String) : String := String.mk (trimChars s.data)

/-- The decimal digit character for `n % 10`-style values. -/
def digitChar (n : Nat) : Char :=
  match n with
  | 0 => '0' | 1 => '1' | 2 => '2' | 3 => '3' | 4 => '4'
  | 5 => '5' | 6 => '6' | 7 => '7' | 8 => '8' | _ + 9 => '9'

/-- Decimal rendering with explicit fuel (structurally recursive, hence
kernel-computable). -/
def natToStringAux : Nat → Nat → String
  | 0, _ => ""
  | fuel + 1, n =>
    if n < 10 then String.mk [digitChar n]
    else natToStringAux fuel (n / 10) ++ String.mk [digitChar (n % 10)]

/-- Decimal rendering of a natural number; models the JS number-to-string
conversion of the non-negative integers interpolated by `formatTime`. -/
def natToString (n : Nat) : String := natToStringAux (n + 1) n

/-- Embeds `formatTime(ms)` of `popup.js`.  In the `ms ≥ 1000` branch all
intermediate values are non-negative, so `Math.floor` of the divisions is
`Nat` division on `ms.toNat`; the JS variable reassignments are shadowing
`let`s, as in the source. -/
def formatTime (ms : Int) : String :=
  if ms < 1000 then "< 1s"
  else
    let seconds := ms.toNat / 1000
    let minutes := seconds / 60
    let hours := minutes / 60
    let seconds := seconds % 60
    let minutes := minutes % 60
    let timeString := ""
    let timeString := if 0 < hours then timeString ++ natToString hours ++ "h " else timeString
    let timeString := if 0 < minutes then timeString ++ natToString minutes ++ "m " else timeString
    let timeString :=
      if 0 < seconds ∨ timeString = "" then timeString ++ natToString seconds ++ "s"
      else timeString
    jsTrim timeString

/-- Rendering of an already-decomposed duration — whole hours, minutes mod
60, seconds mod 60 — by the formatting rules of the spec (each unit shown
only when positive, seconds also when they are the only unit).  Stated so
that the decomposition performed by `formatTime` can be compared against
the spec's description of it. -/
def renderHMS (hours minutes seconds : Nat) : String :=
  let timeString := ""
  let timeString := if 0 < hours then timeString ++ natToString hours ++ "h " else timeString
  let timeString := if 0 < minutes then timeString ++ natToString minutes ++ "m " else timeString
  let timeString :=
    if 0 < seconds ∨ timeString = "" then timeString ++ natToString seconds ++ "s"
    else timeString
  jsTrim timeString

/-! ## Lemmas about the formatter -/

theorem digitChar_not_ws (n : Nat) : isJsWhitespace (digitChar n) = false := by
  unfold digitChar
  rcases n with _|_|_|_|_|_|_|_|_|n <;> rfl

theorem natToStringAux_not_ws (fuel : Nat) :
    ∀ (n : Nat), ∀ c ∈ (natToStringAux fuel n).data, isJsWhitespace c = false := by
  induction fuel with
  | zero => intro n c hc; simp [natToStringAux] at hc
  | succ fuel ih =>
    intro n c hc
    simp only [natToStringAux] at hc
    split at hc
    · simp at hc
      subst hc
      exact digitChar_not_ws n
    · rw [String.data_append] at hc
      rcases List.mem_append.mp hc with hc | hc
      · exact ih (n / 10) c hc
      · simp at hc
        subst hc
        exact digitChar_not_ws _

theorem natToString_not_ws (n : Nat) :
    ∀ c ∈ (natToString n).data, isJsWhitespace c = false :=
  natToStringAux_not_ws (n + 1) n

theorem natToString_ne_nil (n : Nat) : (natToString n).data ≠ [] := by
  simp only [natToString, natToStringAux]
  split
  · simp
  · rw [String.data_append]
    simp

theorem trimChars_of_ends (a z : Char) (mid : List Char)
    (ha : isJsWhitespace a = false) (hz : isJsWhitespace z = false) :
    trimChars (a :: (mid ++ [z])) = a :: (mid ++ [z]) := by
  unfold trimChars
  rw [List.dropWhile_cons_of_neg (by simp [ha])]
  have hrev : (a :: (mid ++ [z])).reverse = z :: (mid.reverse ++ [a]) := by
    simp
  rw [hrev, List.dropWhile_cons_of_neg (by simp [hz]), ← hrev, List.reverse_reverse]

theorem jsTrim_hs (hours seconds : Nat) :
    jsTrim (natToString hours ++ "h " ++ natToString seconds ++ "s")
      = natToString hours ++ "h " ++ natToString seconds ++ "s" := by
  obtain ⟨a, cs, hcs⟩ : ∃ a cs, (natToString hours).data = a :: cs := by
    cases hh : (natToString hours).data with
    | nil => exact absurd hh (natToString_ne_nil hours)
    | cons a cs => exact ⟨a, cs, rfl⟩
  have ha : isJsWhitespace a = false :=
    natToString_not_ws hours a (by rw [hcs]; exact List.mem_cons_self a cs)
  have hdata : (natToString hours ++ "h " ++ natToString seconds ++ "s").data
      = a :: ((cs ++ 'h' :: ' ' :: (natToString seconds).data) ++ ['s']) := by
    simp [String.data_append, hcs]
  have hz : isJsWhitespace 's' = false := by decide
  have htrim := trimChars_of_ends a 's' (cs ++ 'h' :: ' ' :: (natToString seconds).data) ha hz
  simp only [jsTrim, hdata, htrim]
  apply String.ext
  simp [hdata]

/-! ## Claim theorems about the formatter -/

/-- C9: `formatTime` maps 500 to `"< 1s"`, 61000 to `"1m 1s"` and 3661000
to `"1h 1m 1s"`; every input below 1000 yields `"< 1s"`, and every larger
input is decomposed into whole hours, minutes mod 60 and seconds mod 60 and
rendered from those components. -/
theorem formatTime_examples_and_decomposition :
    formatTime 500 = "< 1s" ∧ formatTime 61000 = "1m 1s" ∧ formatTime 3661000 = "1h 1m 1s"
    ∧ (∀ ms : Int, ms < 1000 → formatTime ms = "< 1s")
    ∧ (∀ ms : Int, 1000 ≤ ms →
        formatTime ms
          = renderHMS (ms.toNat / 3600000) (ms.toNat / 60000 % 60) (ms.toNat / 1000 % 60)) := by
  refine ⟨by decide, by decide, by decide, fun ms h => by simp [formatTime, h], fun ms h => ?_⟩
  have h1 : ¬ ms < 1000 := not_lt.mpr h
  have e1 : ms.toNat / 1000 / 60 = ms.toNat / 60000 := by
    rw [Nat.div_div_eq_div_mul]
  have e2 : ms.toNat / 60000 / 60 = ms.toNat / 3600000 := by
    rw [Nat.div_div_eq_div_mul]
  simp only [formatTime, renderHMS, if_neg h1, e1, e2]

/-- Witness for C9: an input below one second, and the decomposition of
3661000 ms (= 1h 1m 1s). -/
theorem formatTime_examples_and_decomposition_witness :
    formatTime 999 = "< 1s"
    ∧ formatTime 3661000
        = renderHMS ((3661000 : Int).toNat / 3600000) ((3661000 : Int).toNat / 60000 % 60)
            ((3661000 : Int).toNat / 1000 % 60) := by
  have h := formatTime_examples_and_decomposition
  exact ⟨h.2.2.2.1 999 (by decide), h.2.2.2.2 3661000 (by decide)⟩

set_option maxHeartbeats 1000000 in
/-- C10: units whose value is zero are omitted: every positive whole number
of minutes below one hour renders as `"<minutes>m"` with no seconds
segment, and every duration with positive hours, zero minutes and positive
seconds renders as `"<hours>h <seconds>s"` with no minutes segment. -/
theorem formatTime_omits_zero_units :
    (∀ k : Nat, k < 60 → 0 < k → formatTime (60000 * (k : Int)) = natToString k ++ "m")
    ∧ (∀ ms : Int, 0 < ms.toNat / 3600000 → ms.toNat / 60000 % 60 = 0 →
        0 < ms.toNat / 1000 % 60 →
        formatTime ms = natToString (ms.toNat / 3600000) ++ "h "
            ++ natToString (ms.toNat / 1000 % 60) ++ "s") := by
  constructor
  · decide
  · intro ms h1 h2 h3
    have hge : ¬ ms < 1000 := by omega
    have e1 : ms.toNat / 1000 / 60 = ms.toNat / 60000 := by
      rw [Nat.div_div_eq_div_mul]
    have e2 : ms.toNat / 60000 / 60 = ms.toNat / 3600000 := by
      rw [Nat.div_div_eq_div_mul]
    simp only [formatTime, if_neg hge, e1, e2, if_pos h1, h2, if_neg (lt_irrefl 0),
      if_pos (Or.inl h3)]
    have ea : ("" : String) ++ natToString (ms.toNat / 3600000) ++ "h "
        = natToString (ms.toNat / 3600000) ++ "h " := by
      apply String.ext
      simp
    rw [ea]
    exact jsTrim_hs (ms.toNat / 3600000) (ms.toNat / 1000 % 60)

/-- Witness for C10: 120000 ms renders as `"2m"` with no seconds segment,
and 3601000 ms renders as `"1h 1s"` with no minutes segment. -/
theorem formatTime_omits_zero_units_witness :
    formatTime (60000 * ((2 : Nat) : Int)) = natToString 2 ++ "m"
    ∧ formatTime 3601000 = natToString ((3601000 : Int).toNat / 3600000) ++ "h "
        ++ natToString ((3601000 : Int).toNat / 1000 % 60) ++ "s" := by
  have h := formatTime_omits_zero_units
  exact ⟨h.1 2 (by decide) (by decide), h.2 3601000 (by decide) (by decide) (by decide)⟩

end TimeTracker
